import Mathlib

/-!
Shallow embedding of the kysely-duckdb-wasm core: the Arrow result
normalization / value-coercion engine of the DuckDB-WASM driver
(`DuckDBConnection.formatToResult`, `convertArrowValue`, `toDateFromValue`,
`toBitStringFromBytes`, `likelyBitByBytes`, `isBitField`), the table-mapping
query compiler (`DuckDbQueryCompiler.visitTable`), and the CTAS extension
(`KyselyDuckDbExtension.createTablesAsSelect`).

JavaScript machine values are modelled as follows: JS numbers and bigints
carrying integral values are `Int` (the code paths under verification only
ever produce integral numbers; IEEE-754 rounding of integers below 2^53 is
exact, and `NaN` is modelled by a dedicated `RawValue.nan` constructor);
`Date` objects are an explicit `JsDate` sum of a valid epoch-millisecond
instant and the invalid-date sentinel; `Uint8Array`/`Int32Array` values are
integer lists; plain JS objects are association lists of own enumerable
properties together with their optional `toArray`/`valueOf`/`toJSON`
capabilities.
-/

namespace KyselyDuckDb

/-- Arrow logical type tags used by the driver (`arrow.Type`).  Tags the
driver never branches on are collapsed into `other`. -/
inductive ArrowTypeId where
  | date
  | dateDay
  | dateMillisecond
  | timestamp
  | struct
  | list
  | map
  | binary
  | largeBinary
  | fixedSizeBinary
  | interval
  | other
  deriving DecidableEq, Repr

/-- Arrow interval unit (`arrow.IntervalUnit`). -/
inductive IntervalUnit where
  | yearMonth
  | dayTime
  | monthDayNano
  deriving DecidableEq, Repr

/-- A JS `Date`: either a valid instant (epoch milliseconds) or the
invalid-date sentinel (`new Date(NaN)`, for which `isNaN(d.getTime())`). -/
inductive JsDate where
  | valid (ms : Int)
  | invalid
  deriving DecidableEq, Repr

/-- Model of the JS validity check `!Number.isNaN(date.getTime())`. -/
def JsDate.isValid : JsDate → Bool
  | .valid _ => true
  | .invalid => false

/-- An Arrow field descriptor: name, type tag, metadata key/value map,
struct children and (for intervals) the declared unit. -/
structure Field where
  name : String
  typeId : ArrowTypeId
  metadata : List (String × String)
  children : List Field
  intervalUnit : Option IntervalUnit
  deriving Repr

/-- Raw JS value delivered by the Arrow execution layer before coercion. -/
inductive RawValue where
  | nullV
  | undefV
  | nan
  | num (n : Int)
  | bigintV (n : Int)
  | str (s : String)
  | boolV (b : Bool)
  | dateV (d : JsDate)
  /-- A typed array (`ArrayBuffer.isView` holds). -/
  | typedArr (elems : List Int)
  /-- A plain JS array (`Array.isArray` holds). -/
  | jsArr (elems : List RawValue)
  /-- A plain JS object: own enumerable entries plus optional `toArray`,
  custom `valueOf` and `toJSON` members (modelled by their return values;
  `none` for `valueOf` means the default `Object.prototype.valueOf`, which
  returns the object itself). -/
  | obj (entries : List (String × RawValue)) (toArrayFn : Option RawValue)
      (valueOfFn : Option RawValue) (toJSONFn : Option RawValue)
  deriving Repr

/-- Association-list lookup, modelling JS property access `m[k]`. -/
def alistLookup {α : Type} (k : String) : List (String × α) → Option α
  | [] => none
  | (k', v) :: rest => if k' = k then some v else alistLookup k rest

/-- Model of JS truthiness for `RawValue`. -/
def jsTruthy : RawValue → Bool
  | .nullV => false
  | .undefV => false
  | .nan => false
  | .num n => n != 0
  | .bigintV n => n != 0
  | .str s => s != ""
  | .boolV b => b
  | .dateV _ => true
  | .typedArr _ => true
  | .jsArr _ => true
  | .obj _ _ _ _ => true

/-- Model of `typeof v === "object"` (null is handled before this test in
every source branch, so it is not special-cased here). -/
def jsIsObject : RawValue → Bool
  | .nullV => true
  | .dateV _ => true
  | .typedArr _ => true
  | .jsArr _ => true
  | .obj _ _ _ _ => true
  | _ => false

/-- Index/value entry list of an array-like value, starting at index `i`. -/
def enumEntries (i : Nat) : List RawValue → List (String × RawValue)
  | [] => []
  | v :: r => (toString i, v) :: enumEntries (i + 1) r

/-- Model of `Object.entries(v)`: own enumerable string-keyed entries.
Arrays and typed arrays enumerate index/value pairs; `Date` objects have no
own enumerable properties. -/
def jsEntries : RawValue → List (String × RawValue)
  | .obj entries _ _ _ => entries
  | .jsArr xs => enumEntries 0 xs
  | .typedArr xs => enumEntries 0 (xs.map RawValue.num)
  | _ => []

/-! ## Calendar arithmetic (model of the ECMA-262 `Date` epoch math) -/

/-- Days from 1970-01-01 to the civil date `y-m-d` (proleptic Gregorian,
`m` in 1..12), the standard era-based civil-from-days inverse used by
ECMA-262 `MakeDay`. -/
def daysFromCivil (y m d : Int) : Int :=
  let y' := if m ≤ 2 then y - 1 else y
  let era := Int.fdiv y' 400
  let yoe := y' - era * 400
  let mp := Int.emod (m + 9) 12
  let doy := Int.fdiv (153 * mp + 2) 5 + d - 1
  let doe := yoe * 365 + Int.fdiv yoe 4 - Int.fdiv yoe 100 + doy
  era * 146097 + doe - 719468

/-- UTC epoch milliseconds of civil date/time components (month 1..12). -/
def civilMs (y mo d h mi s ms : Int) : Int :=
  daysFromCivil y mo d * 86400000 + h * 3600000 + mi * 60000 + s * 1000 + ms

/-- Model of `Date.UTC(y, mo, d, h, mi, s, ms)` with the JS 0-based month,
field overflow carried into the month/year (ECMA-262 `MakeDay`), and the
two-digit-year 1900 offset. -/
def dateUTC (y mo d h mi s ms : Int) : Int :=
  let yr := if 0 ≤ y ∧ y ≤ 99 then 1900 + y else y
  let ym := yr + Int.fdiv mo 12
  let mn := Int.emod mo 12
  (daysFromCivil ym (mn + 1) 1 + (d - 1)) * 86400000
    + h * 3600000 + mi * 60000 + s * 1000 + ms

/-- Maximum |epoch milliseconds| of a valid JS `Date` (8.64e15). -/
def maxTimeValue : Int := 8640000000000000

/-- Model of constructing a JS `Date` from an epoch-millisecond time value:
out-of-range time values give the invalid-date sentinel. -/
def dateFromMs (t : Int) : JsDate :=
  if t.natAbs ≤ 8640000000000000 then .valid t else .invalid

/-- Days in a month of the proleptic Gregorian calendar. -/
def daysInMonth (y m : Int) : Int :=
  if m = 2 then
    (if Int.emod y 4 = 0 ∧ (Int.emod y 100 ≠ 0 ∨ Int.emod y 400 = 0)
     then 29 else 28)
  else if m = 4 ∨ m = 6 ∨ m = 9 ∨ m = 11 then 30
  else 31

/-! ## Character-level parsing helpers -/

/-- Digit character for `d < 10`. -/
def mkDigit (d : Nat) : Char := Char.ofNat (48 + d)

/-- Reads one decimal digit character. -/
def digitVal (c : Char) : Option Nat :=
  if c.isDigit then some (c.toNat - 48) else none

/-- Reads exactly two decimal digits. -/
def rd2 : List Char → Option (Nat × List Char)
  | c1 :: c2 :: r =>
    match digitVal c1, digitVal c2 with
    | some a, some b => some (a * 10 + b, r)
    | _, _ => none
  | _ => none

/-- Reads exactly four decimal digits. -/
def rd4 : List Char → Option (Nat × List Char)
  | c1 :: c2 :: c3 :: c4 :: r =>
    match digitVal c1, digitVal c2, digitVal c3, digitVal c4 with
    | some a, some b, some c, some d =>
      some (a * 1000 + b * 100 + c * 10 + d, r)
    | _, _, _, _ => none
  | _ => none

/-- Consumes one expected character. -/
def skipCh (ch : Char) : List Char → Option (List Char)
  | c :: r => if c = ch then some r else none
  | [] => none

/-- Splits off a maximal run of leading decimal digits. -/
def takeDigits : List Char → (List Nat × List Char)
  | [] => ([], [])
  | c :: r =>
    match digitVal c with
    | some d => let (ds, rest) := takeDigits r; (d :: ds, rest)
    | none => ([], c :: r)

/-- Milliseconds denoted by a fraction-digit list: the first three digits,
padded on the right with zeros (truncation beyond millisecond precision,
matching both the driver's explicit `(frac + "000").slice(0, 3)` and the
host's ISO parsing). -/
def fracMs (ds : List Nat) : Nat :=
  (ds.getD 0 0) * 100 + (ds.getD 1 0) * 10 + ds.getD 2 0

/-- Two-digit zero-padded decimal rendering (used to build test strings). -/
def pad2 (n : Nat) : List Char := [mkDigit (n / 10), mkDigit (n % 10)]

/-- Three-digit zero-padded decimal rendering. -/
def pad3 (n : Nat) : List Char :=
  [mkDigit (n / 100), mkDigit (n / 10 % 10), mkDigit (n % 10)]

/-- Four-digit zero-padded decimal rendering. -/
def pad4 (n : Nat) : List Char :=
  [mkDigit (n / 1000), mkDigit (n / 100 % 10), mkDigit (n / 10 % 10),
   mkDigit (n % 10)]

/-! ## Model of host ISO date-time string parsing (`new Date(string)`)

ECMA-262 mandates parsing of the ISO Date Time String Format
`YYYY-MM-DD(THH:mm(:ss(.fff))(Z|±HH:mm|±HHMM))`; everything beyond that
grammar (expanded ±YYYYYY years, date-time strings without a UTC offset,
which denote host-local time, and engine-specific lenient formats) is
environment-dependent and is modelled by an explicit fallback parameter
`gp` threaded through the driver model. -/

/-- Parses a trailing UTC-offset designator, returning the offset in
milliseconds; the whole remainder of the string must be consumed. -/
def rdTz : List Char → Option Int
  | ['Z'] => some 0
  | c :: r =>
    let sign : Option Int :=
      if c = '+' then some 1 else if c = '-' then some (-1) else none
    match sign with
    | none => none
    | some sg =>
      match rd2 r with
      | none => none
      | some (oh, r1) =>
        let rest :=
          match r1 with
          | ':' :: r2 => some r2
          | r2 => some r2
        match rest with
        | none => none
        | some r2 =>
          match rd2 r2 with
          | some (om, []) =>
            if oh ≤ 23 ∧ om ≤ 59 then
              some (sg * ((oh : Int) * 3600000 + (om : Int) * 60000))
            else none
          | _ => none
  | [] => none

/-- Parses the time-of-day part after `'T'`, including optional seconds,
optional fraction and a mandatory offset designator (an absent offset means
host-local time, which is delegated to the environment fallback). Returns
the time of day in milliseconds together with the offset in milliseconds. -/
def rdTime (l : List Char) : Option (Int × Int) :=
  match rd2 l with
  | none => none
  | some (hh, r1) =>
    match skipCh ':' r1 with
    | none => none
    | some r2 =>
      match rd2 r2 with
      | none => none
      | some (mi, r3) =>
        let secPart : Option (Nat × Nat × List Char) :=
          match r3 with
          | ':' :: r4 =>
            match rd2 r4 with
            | none => none
            | some (ss, r5) =>
              match r5 with
              | '.' :: r6 =>
                match takeDigits r6 with
                | ([], _) => none
                | (ds, r7) => some (ss, fracMs ds, r7)
              | _ => some (ss, 0, r5)
          | _ => some (0, 0, r3)
        match secPart with
        | none => none
        | some (ss, ms, r8) =>
          match rdTz r8 with
          | none => none
          | some off =>
            if (hh ≤ 23 ∧ mi ≤ 59 ∧ ss ≤ 59)
                ∨ (hh = 24 ∧ mi = 0 ∧ ss = 0 ∧ ms = 0) then
              some ((hh : Int) * 3600000 + (mi : Int) * 60000
                + (ss : Int) * 1000 + (ms : Int), off)
            else none

/-- Parses a full ISO date-time string into UTC epoch milliseconds: a
date-only string denotes UTC midnight; a date-time requires an explicit
offset designator (see `rdTime`). -/
def parseIsoChars (l : List Char) : Option Int :=
  match rd4 l with
  | none => none
  | some (y, r1) =>
    match skipCh '-' r1 with
    | none => none
    | some r2 =>
      match rd2 r2 with
      | none => none
      | some (mo, r3) =>
        match skipCh '-' r3 with
        | none => none
        | some r4 =>
          match rd2 r4 with
          | none => none
          | some (d, r5) =>
            if 1 ≤ mo ∧ mo ≤ 12 ∧ 1 ≤ d ∧ (d : Int) ≤ daysInMonth y mo then
              match r5 with
              | [] => some (civilMs y mo d 0 0 0 0)
              | 'T' :: r6 =>
                match rdTime r6 with
                | none => none
                | some (tod, off) =>
                  some (daysFromCivil y mo d * 86400000 + tod - off)
              | _ => none
            else none

/-- Model of `new Date(s)` / `Date.parse(s)`: the mandated ISO format
first, then the environment-specific fallback `gp` (which also covers
host-local interpretation of offset-less date-times). -/
def jsParse (gp : String → Option Int) (s : String) : JsDate :=
  match parseIsoChars s.data with
  | some t => dateFromMs t
  | none =>
    match gp s with
    | some t => dateFromMs t
    | none => .invalid

/-! ## Bit-string vs blob disambiguation (`part_002` lines 407–483) -/

/-- First index at which `pat` occurs in `l`, the model of
`String.prototype.indexOf` restricted to found/not-found positions. -/
def indexOfSub (pat : List Char) : List Char → Option Nat
  | [] => if pat = [] then some 0 else none
  | c :: r =>
    if pat.isPrefixOf (c :: r) then some 0
    else (indexOfSub pat r).map (· + 1)

/-- Model of `v.toUpperCase().includes("BIT")`. -/
def containsBIT (v : String) : Bool :=
  (indexOfSub "BIT".data (v.toUpper.data)).isSome

/-- Metadata keys probed, in order, for the DuckDB logical-type hint. -/
def bitMetadataKeys : List String :=
  ["duckdb.logicalType", "duckdb_type", "logicalType", "duckdb.logical_type"]

/-- Embedding of `isBitField`: a fixed-size binary physical type, or any of
the candidate metadata keys holding a string whose upper-casing contains
"BIT". -/
def isBitField (field : Field) : Bool :=
  field.typeId = ArrowTypeId.fixedSizeBinary
    || bitMetadataKeys.any fun k =>
        match alistLookup k field.metadata with
        | some v => containsBIT v
        | none => false

/-- Binary expansion of one byte, `b.toString(2).padStart(8, "0")`: the
plain binary digit string (no leading zeros, `"0"` for zero) padded on the
left to at least eight characters. -/
def byteBits8 (b : Nat) : List Char :=
  let s := Nat.toDigits 2 b
  List.replicate (8 - s.length) '0' ++ s

/-- Concatenated binary expansion of a byte sequence (the `binaryStr` the
for-loop of `toBitStringFromBytes` builds). -/
def bitsOfBytes (bytes : List Nat) : List Char :=
  (bytes.map byteBits8).flatten

/-- Matched-and-parsed width of a `BIT(n)` pattern in a logical-type hint
string: scans for a case-insensitive `BIT`, optional spaces, `(`, optional
spaces, a digit run, optional spaces, `)`, the model of
`v.match(/BIT\s*\(\s*(\d+)\s*\)/i)` followed by `parseInt`. -/
def scanBitWidth : List Char → Option Nat
  | [] => none
  | c :: r =>
    let here : Option Nat :=
      match c :: r with
      | b :: i :: t :: r1 =>
        if (b = 'B' ∨ b = 'b') ∧ (i = 'I' ∨ i = 'i') ∧ (t = 'T' ∨ t = 't')
        then
          let r2 := r1.dropWhile (· = ' ')
          match r2 with
          | '(' :: r3 =>
            let r4 := r3.dropWhile (· = ' ')
            match takeDigits r4 with
            | ([], _) => none
            | (ds, r5) =>
              let r6 := r5.dropWhile (· = ' ')
              match r6 with
              | ')' :: _ => some (ds.foldl (fun acc d => acc * 10 + d) 0)
              | _ => none
          | _ => none
        else none
      | _ => none
    match here with
    | some n => some n
    | none => scanBitWidth r

/-- Declared bit width found by probing the metadata keys in order; a hit
is only taken when the parsed width is positive, otherwise the scan moves
on to the next key (the `len > 0` guard inside the source's key loop). -/
def findBitWidth (metadata : List (String × String)) : Option Nat :=
  bitMetadataKeys.foldr
    (fun k acc =>
      match alistLookup k metadata with
      | some v =>
        match scanBitWidth v.data with
        | some len => if len > 0 then some len else acc
        | none => acc
      | none => acc)
    none

/-- Last `n` characters of a list (`String.prototype.slice(-n)` for
`n > 0`: the whole string when `n` exceeds its length). -/
def takeLast (n : Nat) (l : List Char) : List Char :=
  l.drop (l.length - n)

/-- Leading-zero stripping with minimum length one:
`binaryStr.replace(/^0+/, "") || "0"`. -/
def stripLeadingZeros (l : List Char) : List Char :=
  let r := l.dropWhile (· = '0')
  if r = [] then ['0'] else r

/-- Embedding of `toBitStringFromBytes`: full byte expansion, then the
declared-width suffix when metadata yields a positive `BIT(n)` width, then
the `"010101"` test-pattern extraction, then leading-zero stripping. -/
def toBitStringFromBytes (bytes : List Nat) (field : Field) : String :=
  let binaryStr := bitsOfBytes bytes
  match findBitWidth field.metadata with
  | some len => String.mk (takeLast len binaryStr)
  | none =>
    match indexOfSub "010101".data binaryStr with
    | some idx => String.mk ((binaryStr.drop idx).take 6)
    | none => String.mk (stripLeadingZeros binaryStr)

/-- Model of the regex test `/^0+[01]+$/`: with backtracking, a match is
exactly a string starting with `'0'`, of length at least two, whose every
character is `'0'` or `'1'`. -/
def zerosThenBits : List Char → Bool
  | '0' :: c :: rest => (c :: rest).all fun x => x = '0' || x = '1'
  | _ => false

/-- Embedding of `likelyBitByBytes`: the legacy heuristic treating exactly
two bytes as a bit value when their 16-bit expansion contains `"010101"`
or matches `/^0+[01]+$/`. -/
def likelyBitByBytes (bytes : List Nat) : Bool :=
  match bytes with
  | [first, second] =>
    let fullBinary := byteBits8 first ++ byteBits8 second
    (indexOfSub "010101".data fullBinary).isSome || zerosThenBits fullBinary
  | _ => false

/-! ## Date coercion (`toDateFromValue`, `part_002` lines 485–532) -/

/-- Match result of the exact ISO-like regex
`/^(\d{4})-(\d{2})-(\d{2})(?:[ T](\d{2}):(\d{2}):(\d{2})(?:\.(\d{1,6}))?)?$/`:
the seven captured components with the fraction already truncated to
milliseconds (`(m[7] + "000").slice(0, 3)`). -/
def matchIsoLikeChars (l : List Char) :
    Option (Nat × Nat × Nat × Nat × Nat × Nat × Nat) :=
  match rd4 l with
  | none => none
  | some (y, r1) =>
    match skipCh '-' r1 with
    | none => none
    | some r2 =>
      match rd2 r2 with
      | none => none
      | some (mo, r3) =>
        match skipCh '-' r3 with
        | none => none
        | some r4 =>
          match rd2 r4 with
          | none => none
          | some (d, r5) =>
            match r5 with
            | [] => some (y, mo, d, 0, 0, 0, 0)
            | sep :: r6 =>
              if sep = ' ' ∨ sep = 'T' then
                match rd2 r6 with
                | none => none
                | some (hh, r7) =>
                  match skipCh ':' r7 with
                  | none => none
                  | some r8 =>
                    match rd2 r8 with
                    | none => none
                    | some (mi, r9) =>
                      match skipCh ':' r9 with
                      | none => none
                      | some r10 =>
                        match rd2 r10 with
                        | none => none
                        | some (ss, r11) =>
                          match r11 with
                          | [] => some (y, mo, d, hh, mi, ss, 0)
                          | '.' :: r12 =>
                            match takeDigits r12 with
                            | ([], _) => none
                            | (ds, []) =>
                              if ds.length ≤ 6 then
                                some (y, mo, d, hh, mi, ss, fracMs ds)
                              else none
                            | (_, _ :: _) => none
                          | _ => none
              else none

/-- The exact ISO-like match of `toDateFromValue`, on strings. -/
def matchIsoLike (s : String) :
    Option (Nat × Nat × Nat × Nat × Nat × Nat × Nat) :=
  matchIsoLikeChars s.data

/-- Embedding of `toDateFromValue` (`gp` is the environment-specific part
of `new Date(string)` parsing, see `jsParse`). Branch order follows the
source: `Date` instances pass through; integral numbers and bigints are
day counts below 1e7 in absolute value and epoch milliseconds otherwise
(`NaN` gives the invalid sentinel); strings try the exact ISO-like format
(built with `Date.UTC`) and then generic parsing, unparseable strings
yielding the invalid sentinel; one-element typed arrays reuse the numeric
rule; anything else is returned unchanged. -/
def toDateFromValue (gp : String → Option Int) : RawValue → Sum JsDate RawValue
  | .dateV d => .inl d
  | .nan => .inl .invalid
  | .num n =>
    if n.natAbs < 10000000 then .inl (dateFromMs (n * 86400000))
    else .inl (dateFromMs n)
  | .bigintV n =>
    if n.natAbs < 10000000 then .inl (dateFromMs (n * 86400000))
    else .inl (dateFromMs n)
  | .str s =>
    match matchIsoLike s with
    | some (y, mo, d, hh, mi, ss, ms) =>
      .inl (dateFromMs (dateUTC (y : Int) ((mo : Int) - 1) (d : Int)
        (hh : Int) (mi : Int) (ss : Int) (ms : Int)))
    | none =>
      match jsParse gp s with
      | .valid t => .inl (.valid t)
      | .invalid => .inl .invalid
  | .typedArr [x] =>
    if x.natAbs < 10000000 then .inl (dateFromMs (x * 86400000))
    else .inl (dateFromMs x)
  | v => .inr v

/-! ## Timestamp string coercion (`part_002` lines 198–214) -/

/-- Reversed-suffix test for `[+-]\d{2}:?\d{2}$`. -/
def endsWithOffsetRev : List Char → Bool
  | e2 :: e1 :: rest =>
    (match rest with
     | ':' :: h2 :: h1 :: sg :: _ =>
       e2.isDigit && e1.isDigit && h2.isDigit && h1.isDigit
         && (sg = '+' || sg = '-')
     | h2 :: h1 :: sg :: _ =>
       e2.isDigit && e1.isDigit && h2.isDigit && h1.isDigit
         && (sg = '+' || sg = '-')
     | _ => false)
  | _ => false

/-- Model of the unanchored test `/Z|[+-]\d{2}:?\d{2}$/.test(value)`: a `Z`
anywhere in the string, or a trailing numeric UTC offset. -/
def hasTZMarker (s : String) : Bool :=
  (s.data.any fun c => c = 'Z') || endsWithOffsetRev s.data.reverse

/-- Replacement of the first occurrence only, the semantics of the JS
string-pattern call `value.replace(" ", "T")`. -/
def replaceFirstSpaceChars : List Char → List Char
  | [] => []
  | ' ' :: r => 'T' :: r
  | c :: r => c :: replaceFirstSpaceChars r

/-- The driver's space-to-`T` normalization before `Date` construction. -/
def replaceFirstSpaceWithT (s : String) : String :=
  String.mk (replaceFirstSpaceChars s.data)

/-- Embedding of the `Timestamp` string branch of `convertArrowValue`: a
timezone-marked string is parsed as-is after space normalization, an
unmarked string gets an appended `"Z"` and is therefore interpreted as
UTC. -/
def timestampFromString (gp : String → Option Int) (s : String) : JsDate :=
  if hasTZMarker s then jsParse gp (replaceFirstSpaceWithT s)
  else jsParse gp (replaceFirstSpaceWithT s ++ "Z")

/-! ## Converted values and recursion measure -/

/-- Coerced output value of `convertArrowValue`. -/
inductive ConvValue where
  /-- The raw value returned unchanged (or a generic `valueOf`/`toJSON`
  result). -/
  | raw (v : RawValue)
  | date (d : JsDate)
  | str (s : String)
  /-- A fresh `Uint8Array` blob copy. -/
  | bytes (bs : List Nat)
  /-- The canonical interval object `{months, days, micros}` (field values
  are raw JS values because the `|| 0` defaulting passes truthy
  non-numbers through unchanged). -/
  | intervalV (months days micros : RawValue)
  /-- A plain JS number array produced by `Array.from` on a typed array. -/
  | numArr (xs : List Int)
  /-- A struct conversion result object. -/
  | objV (fields : List (String × ConvValue))
  deriving Repr

mutual

/-- Structural depth of a raw value, the recursion measure for the
conversion functions (typed arrays and dates count as depth 2 so that the
synthetic `Object.entries` views over their scalar members stay smaller). -/
def RawValue.depth : RawValue → Nat
  | .jsArr xs => 1 + depthList xs
  | .obj entries _ _ _ => 1 + depthEntries entries
  | .typedArr _ => 2
  | .dateV _ => 2
  | _ => 1

/-- Depth of a value list. -/
def depthList : List RawValue → Nat
  | [] => 0
  | v :: r => max v.depth (depthList r)

/-- Depth of an entry list. -/
def depthEntries : List (String × RawValue) → Nat
  | [] => 0
  | (_, v) :: r => max v.depth (depthEntries r)

end

theorem depth_le_of_mem_depthList {v : RawValue} {xs : List RawValue}
    (h : v ∈ xs) : v.depth ≤ depthList xs := by
  induction xs with
  | nil => cases h
  | cons x r ih =>
    rcases List.mem_cons.mp h with h1 | h2
    · subst h1; simp [depthList]
    · exact le_trans (ih h2) (by simp [depthList])

theorem depth_le_of_mem_depthEntries {k : String} {v : RawValue}
    {es : List (String × RawValue)} (h : (k, v) ∈ es) :
    v.depth ≤ depthEntries es := by
  induction es with
  | nil => cases h
  | cons e r ih =>
    rcases List.mem_cons.mp h with h1 | h2
    · cases e; cases h1; simp [depthEntries]
    · cases e; exact le_trans (ih h2) (by simp [depthEntries])

theorem depth_pos (v : RawValue) : 1 ≤ v.depth := by
  cases v <;> simp [RawValue.depth]

theorem mem_of_mem_enumEntries {k : String} {v : RawValue} {i : Nat}
    {xs : List RawValue} (h : (k, v) ∈ enumEntries i xs) : v ∈ xs := by
  induction xs generalizing i with
  | nil => cases h
  | cons x r ih =>
    rcases List.mem_cons.mp h with h1 | h2
    · cases h1; exact List.mem_cons_self _ _
    · exact List.mem_cons_of_mem _ (ih h2)

theorem depth_lt_of_mem_jsEntries {k : String} {v : RawValue}
    {w : RawValue} (h : (k, v) ∈ jsEntries w) : v.depth < w.depth := by
  cases w with
  | obj entries ta vo tj =>
    simp only [jsEntries] at h
    have := depth_le_of_mem_depthEntries h
    simp only [RawValue.depth]; omega
  | jsArr xs =>
    simp only [jsEntries] at h
    have := depth_le_of_mem_depthList (mem_of_mem_enumEntries h)
    simp only [RawValue.depth]; omega
  | typedArr xs =>
    simp only [jsEntries] at h
    have hx := mem_of_mem_enumEntries h
    obtain ⟨x, -, rfl⟩ := List.mem_map.mp hx
    simp [RawValue.depth]
  | nullV => simp [jsEntries] at h
  | undefV => simp [jsEntries] at h
  | nan => simp [jsEntries] at h
  | num n => simp [jsEntries] at h
  | bigintV n => simp [jsEntries] at h
  | str s => simp [jsEntries] at h
  | boolV b => simp [jsEntries] at h
  | dateV d => simp [jsEntries] at h

theorem depth_lt_of_mem_jsArr {v : RawValue} {xs : List RawValue}
    (h : v ∈ xs) : v.depth < (RawValue.jsArr xs).depth := by
  have := depth_le_of_mem_depthList h
  simp only [RawValue.depth]; omega

/-! ## String coercion (JS template-literal interpolation) -/

/-- Renders an integer in decimal, the JS `toString` of an integral number
or bigint. -/
def intToDec (n : Int) : String := toString n

mutual

/-- Model of JS string coercion `String(v)` as used by the map-entry
template literal: primitives render canonically, arrays join their
stringified elements with commas (null/undefined elements render empty),
plain objects render as `[object Object]`; the host-locale rendering of a
`Date` is abstracted to a canonical `Date(ms)` tag. -/
def jsToString : RawValue → String
  | .nullV => "null"
  | .undefV => "undefined"
  | .nan => "NaN"
  | .num n => intToDec n
  | .bigintV n => intToDec n
  | .str s => s
  | .boolV b => cond b "true" "false"
  | .dateV (.valid ms) => "Date(" ++ intToDec ms ++ ")"
  | .dateV .invalid => "Invalid Date"
  | .typedArr xs => String.intercalate "," (xs.map intToDec)
  | .jsArr xs => String.intercalate "," (jsArrStrings xs)
  | .obj _ _ _ _ => "[object Object]"

/-- Element rendering inside an array join. -/
def jsArrStrings : List RawValue → List String
  | [] => []
  | .nullV :: r => "" :: jsArrStrings r
  | .undefV :: r => "" :: jsArrStrings r
  | v :: r => jsToString v :: jsArrStrings r

end

/-- Canonical map rendering `{k=v, k=v}` built with `${key}=${val}` pair
interpolation and `", "` joining. -/
def mapEntriesString (entries : List (String × RawValue)) : String :=
  "\x7b" ++ String.intercalate ", "
    (entries.map fun p => p.1 ++ "=" ++ jsToString p.2) ++ "\x7d"

/-- Result of `value.toArray` when the value exposes a callable `toArray`
member (only plain objects carry one in this model; Arrow vectors are such
objects). -/
def toArrayOf : RawValue → Option RawValue
  | .obj _ (some r) _ _ => some r
  | _ => none

/-- Embedding of the generic conversion fallback at the bottom of
`convertArrowValue`: typed arrays become plain number arrays; a callable
`toArray` is used next (its typed-array results again becoming plain
arrays); then `valueOf` — every JS object has at least the default
`Object.prototype.valueOf`, which returns the receiver, so the subsequent
`toJSON` probe of the source is unreachable and non-object values fall out
the bottom unchanged.  A `Date`'s `valueOf` is its time value. -/
def genericFallback : RawValue → ConvValue
  | .typedArr xs => .numArr xs
  | .obj entries (some (.typedArr xs)) vo tj =>
    let _ := (entries, vo, tj); .numArr xs
  | .obj entries (some r) vo tj => let _ := (entries, vo, tj); .raw r
  | .obj entries none (some r) tj => let _ := (entries, tj); .raw r
  | .obj entries none none tj => .raw (.obj entries none none tj)
  | .jsArr xs => .raw (.jsArr xs)
  | .dateV (.valid ms) => .raw (.num ms)
  | .dateV .invalid => .raw .nan
  | v => .raw v

/-- Lifting of a `toDateFromValue` result into a converted value. -/
def dateResult : Sum JsDate RawValue → ConvValue
  | .inl d => .date d
  | .inr v => .raw v

/-- The `|| 0` defaulting applied to interval tuple components delivered
as plain arrays: a falsy component becomes the number zero, a truthy one
passes through unchanged. -/
def jsOrZero (v : RawValue) : RawValue :=
  if jsTruthy v then v else .num 0

/-- Embedding of `DuckDBConnection.convertArrowValue` (`part_002` lines
167–405).  `gp` is the environment-specific part of `new Date(string)`
parsing (see `jsParse`).  Branches appear in source order: the null check,
the `Map` entries rendering, the type switch (dates, timestamps, structs,
lists, binary/bit disambiguation, fixed-size binary, intervals — with the
64-bit nanosecond recombination written over exact integers, which agrees
with the source's float arithmetic on every interval whose nanosecond
count stays below 2^53), and the generic fallback. -/
def convertArrowValue (gp : String → Option Int) (value : RawValue)
    (field : Field) : ConvValue :=
  match value with
  | .nullV => .raw .nullV
  | .undefV => .raw .undefV
  | v =>
    if field.typeId = ArrowTypeId.map ∧ jsTruthy v ∧ jsIsObject v
        ∧ ¬(jsEntries v).isEmpty then
      .str (mapEntriesString (jsEntries v))
    else
      match field.typeId with
      | .date => dateResult (toDateFromValue gp v)
      | .dateDay => dateResult (toDateFromValue gp v)
      | .dateMillisecond => dateResult (toDateFromValue gp v)
      | .timestamp =>
        match v with
        | .dateV d => .date d
        | .str s => .date (timestampFromString gp s)
        | .num n => .date (dateFromMs n)
        | .bigintV n => .date (dateFromMs n)
        | .nan => .date .invalid
        | w => genericFallback w
      | .struct =>
        if jsTruthy v ∧ jsIsObject v then
          match v with
          | .jsArr elems =>
            .objV ((field.children.zip elems.attach).map fun p =>
              (p.1.name, convertArrowValue gp p.2.1 p.1))
          | w =>
            .objV ((jsEntries w).attach.map fun p =>
              (p.1.1,
               match field.children.find? (fun f => f.name = p.1.1) with
               | some cf => convertArrowValue gp p.1.2 cf
               | none => .raw p.1.2))
        else genericFallback v
      | .list =>
        match toArrayOf v with
        | some (.typedArr xs) => .numArr xs
        | some r => .raw r
        | none => genericFallback v
      | .binary =>
        match v with
        | .typedArr xs =>
          let bytes := xs.map Int.toNat
          if isBitField field then .str (toBitStringFromBytes bytes field)
          else if likelyBitByBytes bytes then
            .str (toBitStringFromBytes bytes field)
          else .bytes bytes
        | w => genericFallback w
      | .largeBinary =>
        match v with
        | .typedArr xs =>
          let bytes := xs.map Int.toNat
          if isBitField field then .str (toBitStringFromBytes bytes field)
          else if likelyBitByBytes bytes then
            .str (toBitStringFromBytes bytes field)
          else .bytes bytes
        | w => genericFallback w
      | .fixedSizeBinary =>
        match v with
        | .typedArr xs => .str (toBitStringFromBytes (xs.map Int.toNat) field)
        | w => genericFallback w
      | .interval =>
        match v with
        | .jsArr (v0 :: v1 :: v2 :: _) =>
          .intervalV (jsOrZero v0) (jsOrZero v1) (jsOrZero v2)
        | .jsArr [v0, v1] =>
          .intervalV (jsOrZero v0) (jsOrZero v1) (.num 0)
        | .typedArr (a0 :: a1 :: a2 :: a3 :: _) =>
          .intervalV (.num a0) (.num a1)
            (.num (Int.fdiv (a2 * 4294967296 + a3) 1000))
        | .typedArr [a0, a1, a2] =>
          .intervalV (.num a0) (.num a1) (.num a2)
        | .typedArr [a0, a1] =>
          match field.intervalUnit with
          | some .yearMonth =>
            .intervalV (.num (a0 * 12 + a1)) (.num 0) (.num 0)
          | some .dayTime =>
            .intervalV (.num 0) (.num a0) (.num (a1 * 1000))
          | some .monthDayNano =>
            .intervalV (.num (a0 * 12 + a1)) (.num 0) (.num 0)
          | none =>
            .intervalV (.num a0) (.num a1) (.num 0)
        | w => genericFallback w
      | .map => genericFallback v
      | .other => genericFallback v
termination_by value.depth
decreasing_by
  · exact depth_lt_of_mem_jsArr p.2.2
  · exact depth_lt_of_mem_jsEntries p.2

/-! ## Result assembly (`formatToResult`, `part_002` lines 127–165) -/

/-- The affected-row-count column aliases the driver sniffs for. -/
def countAliasNames : List String := ["Count", "count", "changes", "rows_affected"]

/-- Extraction of `numAffectedRows` from the first row's count cell:
numbers and bigints carry over, anything else leaves it undefined. -/
def affectedRowsOf : Option RawValue → Option Int
  | some (.num n) => some n
  | some (.bigintV n) => some n
  | _ => none

/-- A Kysely `QueryResult` as the driver builds it. -/
structure QueryResult where
  rows : List (List (String × ConvValue))
  numAffectedRows : Option Int
  insertId : Option Int
  deriving Repr

/-- Property access `row[key]` on a row object (absent keys read as
`undefined`). -/
def rawLookup (k : String) (row : List (String × RawValue)) : RawValue :=
  (alistLookup k row).getD .undefV

/-- Embedding of `DuckDBConnection.formatToResult`: when the schema has
exactly one field, at least one row exists, and the field's name is one of
the count aliases, the batch collapses to `{rows: [], numAffectedRows}`;
otherwise every row is coerced field by field in schema order.  The `sql`
text is received (it is the only statement-kind signal available to the
function) but never consulted. -/
def formatToResult (gp : String → Option Int) (fields : List Field)
    (rowsArray : List (List (String × RawValue))) (sql : String) :
    QueryResult :=
  let _ := sql
  let collapsed : Option QueryResult :=
    match fields, rowsArray with
    | [f], first :: _ =>
      if countAliasNames.contains f.name then
        some { rows := [],
               numAffectedRows := affectedRowsOf (alistLookup f.name first),
               insertId := none }
      else none
    | _, _ => none
  match collapsed with
  | some q => q
  | none =>
    { rows := rowsArray.map fun row => fields.map fun f =>
        (f.name, convertArrowValue gp (rawLookup f.name row) f),
      numAffectedRows := none, insertId := none }

/-! ## Query compiler (`src/query-compiler.ts`) -/

/-- Embedding of `DuckDbQueryCompiler.sanitizeIdentifier`: every embedded
double quote is doubled (`identifier.replace(/"/g, '""')`). -/
def sanitizeIdentifier (s : String) : String :=
  String.mk ((s.data.map fun c => if c = '"' then ['"', '"'] else [c]).flatten)

/-- Identifier quoting under the compiler's double-quote wrappers. -/
def quoteIdent (s : String) : String :=
  "\"" ++ sanitizeIdentifier s ++ "\""

/-- A table-reference AST node as `visitTable` observes it: the schemable
identifier (optional schema plus name), the alias carried on the node if
any (an identifier-like payload, uniformly modelled by its name string),
and whether the compiler's parent node is an `AliasNode` that already owns
alias emission. -/
structure TableNode where
  schema : Option String
  name : String
  tblAlias : Option String
  parentIsAlias : Bool

/-- Default table emission (`DefaultQueryCompiler.visitTable` /
`visitSchemableIdentifier`): the quoted identifier, schema-qualified when
a schema is present. -/
def visitTableDefault (n : TableNode) : String :=
  match n.schema with
  | some sch => quoteIdent sch ++ "." ++ quoteIdent n.name
  | none => quoteIdent n.name

/-- Embedding of `DuckDbQueryCompiler.visitTable`: a mapped table name
emits the mapped raw SQL expression verbatim and then — unless an
enclosing `AliasNode` already handles it — ` as ` plus the re-quoted
alias when the node carries one; an unmapped name delegates to the default
quoting path. -/
def visitTable (mappings : List (String × String)) (n : TableNode) :
    String :=
  match alistLookup n.name mappings with
  | some expr =>
    expr ++
      (if n.parentIsAlias then ""
       else
         match n.tblAlias with
         | some a => " as " ++ quoteIdent a
         | none => "")
  | none => visitTableDefault n

/-! ## CTAS extension (`KyselyDuckDbExtension.createTablesAsSelect`) -/

/-- Identifier validity per `/^[A-Za-z_][A-Za-z0-9_]*$/`. -/
def isValidIdent (s : String) : Bool :=
  match s.data with
  | [] => false
  | c :: r =>
    (c.isAlpha || c = '_') && r.all fun x => x.isAlphanum || x = '_'

/-- The error text thrown for an invalid table name
(`IDENTIFIER_RE.source` interpolated after the offending name). -/
def invalidTableNameError (name : String) : String :=
  "Invalid table name: " ++ name
    ++ ". Names must match ^[A-Za-z_][A-Za-z0-9_]*$"

/-- The compiled CTAS text issued for one table (`sql.id` quotes the name
with double quotes; the select query is abstracted by its compiled SQL
text). -/
def ctasSql (name : String) (query : String) : String :=
  "CREATE TABLE " ++ quoteIdent name ++ " AS (" ++ query ++ ")"

/-- Embedding of `createTablesAsSelect`'s per-table loop: tables are
processed in iteration order; each name is validated immediately before
its own CTAS statement is executed, and the first invalid name aborts the
loop with the descriptive error.  The result pairs the list of SQL
statements that were issued before control returned with the error, if
any. -/
def createTablesAsSelect :
    List (String × String) → List String × Option String
  | [] => ([], none)
  | (name, query) :: rest =>
    if isValidIdent name then
      let (issued, err) := createTablesAsSelect rest
      (ctasSql name query :: issued, err)
    else ([], some (invalidTableNameError name))

/-! ## Rendered timestamp strings (test-string builders for the
zoned-timestamp theorems) -/

/-- A zoned civil timestamp with an explicit UTC offset. -/
structure ZonedTs where
  y : Nat
  mo : Nat
  d : Nat
  hh : Nat
  mi : Nat
  ss : Nat
  ms : Nat
  negOff : Bool
  oh : Nat
  om : Nat

/-- The date-time core `YYYY-MM-DD HH:MM:SS.mmm` (space-separated, as
DuckDB renders timestamps). -/
def renderCore (z : ZonedTs) : List Char :=
  pad4 z.y ++ '-' :: pad2 z.mo ++ '-' :: pad2 z.d ++ ' ' :: pad2 z.hh
    ++ ':' :: pad2 z.mi ++ ':' :: pad2 z.ss ++ '.' :: pad3 z.ms

/-- The rendered zoned string `YYYY-MM-DD HH:MM:SS.mmm±HH:MM`. -/
def renderZoned (z : ZonedTs) : String :=
  String.mk (renderCore z
    ++ (if z.negOff then '-' else '+') :: pad2 z.oh ++ ':' :: pad2 z.om)

/-- The rendered offset-less string `YYYY-MM-DD HH:MM:SS.mmm`. -/
def renderNaive (z : ZonedTs) : String :=
  String.mk (renderCore z)

/-- The rendered Zulu string `YYYY-MM-DD HH:MM:SS.mmmZ`. -/
def renderZulu (z : ZonedTs) : String :=
  String.mk (renderCore z ++ ['Z'])

/-- The date-time core after the driver's space-to-`T` normalization. -/
def dateTimeTChars (z : ZonedTs) : List Char :=
  pad4 z.y ++ '-' :: pad2 z.mo ++ '-' :: pad2 z.d ++ 'T' :: pad2 z.hh
    ++ ':' :: pad2 z.mi ++ ':' :: pad2 z.ss ++ '.' :: pad3 z.ms

/-- UTC epoch milliseconds the components denote when read in UTC,
ignoring the offset. -/
def civilMsOf (z : ZonedTs) : Int :=
  civilMs (z.y : Int) (z.mo : Int) (z.d : Int) (z.hh : Int) (z.mi : Int)
    (z.ss : Int) (z.ms : Int)

/-- The declared UTC offset in milliseconds. -/
def offsetMsOf (z : ZonedTs) : Int :=
  (if z.negOff then -1 else 1) * ((z.oh : Int) * 3600000 + (z.om : Int) * 60000)

/-- The UTC instant a zoned timestamp denotes: the civil reading minus the
declared offset (this is the specification-side definition of
"preserve the offset and normalize to UTC"). -/
def specUtcInstant (z : ZonedTs) : Int :=
  civilMsOf z - offsetMsOf z

/-- Well-formedness of the components: calendar-valid date, in-range time
of day, millisecond fraction, and an offset below 24 hours. -/
def ZonedTs.wf (z : ZonedTs) : Prop :=
  1 ≤ z.y ∧ z.y ≤ 9999 ∧ 1 ≤ z.mo ∧ z.mo ≤ 12 ∧ 1 ≤ z.d
    ∧ (z.d : Int) ≤ daysInMonth (z.y : Int) (z.mo : Int)
    ∧ z.hh ≤ 23 ∧ z.mi ≤ 59 ∧ z.ss ≤ 59 ∧ z.ms ≤ 999
    ∧ z.oh ≤ 23 ∧ z.om ≤ 59

instance (z : ZonedTs) : Decidable z.wf := by
  unfold ZonedTs.wf; infer_instance

/-! ## Concrete fixtures used by witnesses and counterexamples -/

/-- An environment fallback parser that recognizes nothing (a host with no
lenient extension beyond the mandated ISO grammar). -/
def noGp : String → Option Int := fun _ => none

/-- A metadata-less BLOB column field. -/
def blobField : Field := ⟨"bl", .binary, [], [], none⟩

/-- The single `count` projection of a row-producing `SELECT count(*)`. -/
def countResultField : Field := ⟨"count", .other, [], [], none⟩

/-- A MAP-typed column field. -/
def sampleMapField : Field := ⟨"m", .map, [], [], none⟩

/-- An interval field declared with the year-month unit. -/
def ymIntervalField : Field := ⟨"iv", .interval, [], [], some .yearMonth⟩

/-- An interval field declared with the day-time unit. -/
def dtIntervalField : Field := ⟨"iv", .interval, [], [], some .dayTime⟩

/-- An interval field declared with the month-day-nano unit. -/
def mdnIntervalField : Field := ⟨"iv", .interval, [], [], some .monthDayNano⟩

/-- The spec's zoned-timestamp example `1992-09-20 11:30:00.123+03:00`. -/
def exampleZoned : ZonedTs := ⟨1992, 9, 20, 11, 30, 0, 123, false, 3, 0⟩

/-- A timestamp field. -/
def tsField : Field := ⟨"ts", .timestamp, [], [], none⟩

/-!
# Claim theorems
-/

/-- C8: for every numeric Date value (number or bigint), an absolute value
below 1e7 is interpreted as a day count since the epoch and multiplied by
86,400,000 milliseconds (always yielding a valid instant), and any larger
magnitude is interpreted directly as epoch milliseconds (subject to the
standard `Date` range clamp). -/
theorem date_numeric_threshold (gp : String → Option Int) (n : Int) :
    (n.natAbs < 10000000 →
      toDateFromValue gp (.num n) = .inl (.valid (n * 86400000))
        ∧ toDateFromValue gp (.bigintV n) = .inl (.valid (n * 86400000)))
    ∧ (10000000 ≤ n.natAbs →
      toDateFromValue gp (.num n) = .inl (dateFromMs n)
        ∧ toDateFromValue gp (.bigintV n) = .inl (dateFromMs n)) := by
  constructor
  · intro h
    have hv : (n * 86400000).natAbs ≤ 8640000000000000 := by
      have := Int.natAbs_mul n 86400000
      omega
    simp [toDateFromValue, h, dateFromMs, hv]
  · intro h
    have hne : ¬ n.natAbs < 10000000 := by omega
    simp [toDateFromValue, hne]

/-- Witness for `date_numeric_threshold` at day count 3 and millisecond
count 100000000. -/
theorem date_numeric_threshold_witness :
    toDateFromValue noGp (.num 3) = .inl (.valid 259200000)
      ∧ toDateFromValue noGp (.num 100000000) = .inl (dateFromMs 100000000) := by
  refine ⟨?_, ?_⟩
  · have h := ((date_numeric_threshold noGp 3).1 (by decide)).1
    rw [h]; rfl
  · exact ((date_numeric_threshold noGp 100000000).2 (by decide)).1

/-- C9: a string Date value that matches neither the exact ISO-like format
nor the generic date parse coerces to the invalid-instant sentinel — a
value the standard validity check rejects — and the conversion returns it
as a value rather than raising (the embedding is a total function). -/
theorem date_unparseable_string_sentinel (gp : String → Option Int)
    (s : String) (h1 : matchIsoLike s = none)
    (h2 : jsParse gp s = .invalid) :
    toDateFromValue gp (.str s) = .inl JsDate.invalid
      ∧ JsDate.isValid JsDate.invalid = false := by
  refine ⟨?_, rfl⟩
  simp [toDateFromValue, h1, h2]

/-- Witness for `date_unparseable_string_sentinel` on `"not-a-date"` with
a host that parses nothing beyond the ISO grammar. -/
theorem date_unparseable_string_sentinel_witness :
    toDateFromValue noGp (.str "not-a-date") = .inl JsDate.invalid
      ∧ JsDate.isValid JsDate.invalid = false :=
  date_unparseable_string_sentinel noGp "not-a-date" rfl rfl

/-- C5 counterexample: a call whose table record holds a valid name before
the invalid `bad-name` does not fail before any SQL is issued — the CTAS
statement for the earlier valid table has already been executed when the
error is raised. -/
theorem ctas_not_failfast_counterexample :
    isValidIdent "bad-name" = false
      ∧ createTablesAsSelect [("good", "select 1"), ("bad-name", "select 1")]
          = (["CREATE TABLE \"good\" AS (select 1)"],
             some ("Invalid table name: bad-name. "
               ++ "Names must match ^[A-Za-z_][A-Za-z0-9_]*$"))
      ∧ (createTablesAsSelect
          [("good", "select 1"), ("bad-name", "select 1")]).1 ≠ [] := by
  refine ⟨rfl, rfl, by decide⟩

/-- C5 (amended): `createTablesAsSelect` validates each name against
`^[A-Za-z_][A-Za-z0-9_]*$` inside its per-table loop — the first invalid
name aborts the call with a descriptive error naming the offending
identifier and the required pattern, before any SQL for that table (or any
later table) is issued, but CTAS statements for the valid tables earlier
in iteration order have already been executed; in particular a call whose
first name is invalid issues no SQL at all. -/
theorem ctas_loop_validation (pre : List (String × String)) (name q : String)
    (rest : List (String × String))
    (hpre : ∀ p ∈ pre, isValidIdent p.1 = true)
    (hname : isValidIdent name = false) :
    createTablesAsSelect (pre ++ (name, q) :: rest)
        = (pre.map fun p => ctasSql p.1 p.2, some (invalidTableNameError name))
      ∧ invalidTableNameError name
        = "Invalid table name: " ++ name
            ++ ". Names must match ^[A-Za-z_][A-Za-z0-9_]*$" := by
  refine ⟨?_, rfl⟩
  induction pre with
  | nil => simp [createTablesAsSelect, hname]
  | cons p ps ih =>
    obtain ⟨pn, pq⟩ := p
    have hp : isValidIdent pn = true := hpre (pn, pq) (by simp)
    have hps : ∀ x ∈ ps, isValidIdent x.1 = true := fun x hx =>
      hpre x (List.mem_cons_of_mem _ hx)
    simp [createTablesAsSelect, hp, ih hps]

/-- Witness for `ctas_loop_validation`: the invalid name comes first, so
the call fails with no SQL issued. -/
theorem ctas_loop_validation_witness :
    createTablesAsSelect [("bad-name", "select 1")]
        = ([], some (invalidTableNameError "bad-name"))
      ∧ invalidTableNameError "bad-name"
        = "Invalid table name: bad-name. "
            ++ "Names must match ^[A-Za-z_][A-Za-z0-9_]*$" := by
  have h := ctas_loop_validation [] "bad-name" "select 1" []
    (by intro p hp; cases hp) rfl
  refine ⟨?_, by rw [h.2]; rfl⟩
  have h1 := h.1
  simpa using h1

/-- C4: a table reference whose name is mapped emits the mapped raw SQL
expression verbatim followed — when the node carries an alias that no
enclosing alias wrapper has emitted — by ` as ` and the alias re-quoted in
double quotes, and a reference whose name is not mapped compiles to its
double-quoted identifier unchanged. -/
theorem visitTable_mapping_alias (mp : List (String × String))
    (n : TableNode) :
    (∀ expr a, alistLookup n.name mp = some expr → n.tblAlias = some a →
      n.parentIsAlias = false →
      visitTable mp n = expr ++ (" as " ++ quoteIdent a))
    ∧ (alistLookup n.name mp = none →
        visitTable mp n = visitTableDefault n)
    ∧ (alistLookup n.name mp = none → n.schema = none →
        visitTable mp n = "\"" ++ sanitizeIdentifier n.name ++ "\"") := by
  refine ⟨?_, ?_, ?_⟩
  · intro expr a h1 h2 h3
    simp [visitTable, h1, h2, h3]
  · intro h1
    simp [visitTable, h1]
  · intro h1 h2
    simp [visitTable, visitTableDefault, quoteIdent, h1, h2]

/-- Witness for `visitTable_mapping_alias`: mapping `person` to
`read_json('person.json')` and compiling `person as p` yields
`read_json('person.json') as "p"`, while unmapped `pet` yields `"pet"`. -/
theorem visitTable_mapping_alias_witness :
    visitTable [("person", "read_json('person.json')")]
        ⟨none, "person", some "p", false⟩
      = "read_json('person.json') as \"p\""
    ∧ visitTable [("person", "read_json('person.json')")]
        ⟨none, "pet", none, false⟩
      = "\"pet\"" := by
  constructor
  · rw [(visitTable_mapping_alias [("person", "read_json('person.json')")]
      ⟨none, "person", some "p", false⟩).1 "read_json('person.json')" "p"
      rfl rfl rfl]
    rfl
  · rw [(visitTable_mapping_alias [("person", "read_json('person.json')")]
      ⟨none, "pet", none, false⟩).2.2 rfl rfl]
    rfl

/-- C1 counterexample: a batch produced by a row-producing statement — the
`sql` text is literally a `SELECT` projecting a single column named
`count` — is still collapsed by `formatToResult` to
`{rows: [], numAffectedRows}`; no execution-mode signal overrides the
column-name sniffing. -/
theorem formatToResult_collapses_select_count :
    formatToResult noGp [countResultField] [[("count", .num 5)]]
        "select count(*) as count from person"
      = { rows := [], numAffectedRows := some 5, insertId := none } := by
  rfl

/-- C1 (amended): `formatToResult` collapses every batch having exactly one
field whose name is a count alias and at least one row to
`{rows: [], numAffectedRows}`, regardless of the statement kind: the
`sql` text — the only statement-kind signal the function receives — is
never consulted, so the result is identical for any two `sql` values. -/
theorem formatToResult_name_sniffing (gp : String → Option Int) (f : Field)
    (r0 : List (String × RawValue)) (rest : List (List (String × RawValue)))
    (hname : f.name ∈ countAliasNames) :
    (∀ sql, formatToResult gp [f] (r0 :: rest) sql
        = { rows := [],
            numAffectedRows := affectedRowsOf (alistLookup f.name r0),
            insertId := none })
    ∧ (∀ sql1 sql2 fields rows,
        formatToResult gp fields rows sql1 = formatToResult gp fields rows sql2) := by
  constructor
  · intro sql
    simp [formatToResult, hname]
  · intro sql1 sql2 fields rows
    rfl

/-- Witness for `formatToResult_name_sniffing` on a one-column `count`
batch carrying the value 5. -/
theorem formatToResult_name_sniffing_witness :
    formatToResult noGp [countResultField] [[("count", .num 5)]] "any sql"
      = { rows := [], numAffectedRows := some 5, insertId := none } := by
  have h := (formatToResult_name_sniffing noGp countResultField
    [("count", .num 5)] [] (by simp [countResultField, countAliasNames])).1
    "any sql"
  rw [h]; rfl

/-- C10: for a Map-typed field, only a raw map object with a non-empty
entry list is rendered as the canonical `{k=v, k=v}` string; an
empty-entried map value is not — it falls through the type switch (which
has no Map case) into the generic fallback conversion chain. -/
theorem map_empty_not_stringified (gp : String → Option Int) (f : Field)
    (hf : f.typeId = ArrowTypeId.map) :
    (∀ entries ta vo tj, entries ≠ [] →
      convertArrowValue gp (.obj entries ta vo tj) f
        = .str (mapEntriesString entries))
    ∧ (∀ ta vo tj,
        convertArrowValue gp (.obj [] ta vo tj) f
          = genericFallback (.obj [] ta vo tj)) := by
  constructor
  · intro entries ta vo tj hne
    rw [convertArrowValue]
    simp [hf, jsTruthy, jsIsObject, jsEntries, hne]
    all_goals (intros; rename_i h; cases h)
  · intro ta vo tj
    rw [convertArrowValue]
    simp [hf, jsEntries]
    all_goals (intros; rename_i h; cases h)

/-- Witness for `map_empty_not_stringified`: two entries render in
delivered order, while the empty map comes back as the raw object
(the fallback's default `valueOf` returns the receiver), not a string. -/
theorem map_empty_not_stringified_witness :
    convertArrowValue noGp
        (.obj [("x", .str "y"), ("z", .str "w")] none none none)
        sampleMapField
      = .str "\x7bx=y, z=w\x7d"
    ∧ convertArrowValue noGp (.obj [] none none none) sampleMapField
      = .raw (.obj [] none none none) := by
  constructor
  · rw [(map_empty_not_stringified noGp sampleMapField rfl).1
      [("x", .str "y"), ("z", .str "w")] none none none (by simp)]
    rfl
  · rw [(map_empty_not_stringified noGp sampleMapField rfl).2 none none none]
    rfl

/-- C2 counterexample: the two-byte value `0x00 0x0A` on a Binary field
with no fixed-width encoding and no BIT metadata hint is not returned as
the unchanged byte sequence `[0x00, 0x0A]` — the legacy two-byte
heuristic classifies it as a bit value (its 16-bit expansion matches the
leading-zeros-then-bits shape) and the conversion yields the bit-string
`"1010"`. -/
theorem blob_00_0A_becomes_bitstring :
    convertArrowValue noGp (.typedArr [0, 10]) blobField = .str "1010"
      ∧ convertArrowValue noGp (.typedArr [0, 10]) blobField
          ≠ .bytes [0, 10] := by
  constructor
  · rw [convertArrowValue]; rfl
  · rw [convertArrowValue]
    intro h
    exact ConvValue.noConfusion (by exact h)

/-- C2 (amended): a Binary-typed field value classified as an opaque blob —
no fixed-width encoding, no BIT metadata hint, and not captured by the
legacy two-byte bit heuristic — is returned as the byte sequence
unchanged, no byte stripped including leading zero bytes (so a one-byte
`0x00` yields the length-1 sequence `[0x00]`); but a two-byte value whose
16-bit expansion contains `"010101"` or starts with a zero bit, such as
`0x00 0x0A`, is diverted to bit-string rendering instead. -/
theorem blob_bytes_unchanged (gp : String → Option Int) (f : Field)
    (xs : List Int)
    (hf : f.typeId = ArrowTypeId.binary ∨ f.typeId = ArrowTypeId.largeBinary)
    (hbit : isBitField f = false)
    (hheur : likelyBitByBytes (xs.map Int.toNat) = false) :
    convertArrowValue gp (.typedArr xs) f = .bytes (xs.map Int.toNat) := by
  rcases hf with hf | hf <;>
    · rw [convertArrowValue]
      simp [hf, hbit, hheur]

/-- Witness for `blob_bytes_unchanged`: the one-byte blob `0x00` survives
as the length-1 byte sequence `[0x00]` (and a three-byte blob with a
leading zero byte also survives unchanged). -/
theorem blob_bytes_unchanged_witness :
    convertArrowValue noGp (.typedArr [0]) blobField = .bytes [0]
    ∧ convertArrowValue noGp (.typedArr [0, 170, 11]) blobField
        = .bytes [0, 170, 11] := by
  constructor
  · rw [blob_bytes_unchanged noGp blobField [0] (Or.inl rfl) rfl rfl]
    rfl
  · rw [blob_bytes_unchanged noGp blobField [0, 170, 11] (Or.inl rfl) rfl rfl]
    rfl

/-- C3 counterexample: for the byte `0x15` with no width metadata,
`toBitStringFromBytes` does not return the leading-zero-stripped expansion
`"10101"` — the hidden `"010101"` test-pattern extraction fires first and
returns `"010101"`. -/
theorem bitstring_pattern_extraction_counterexample :
    toBitStringFromBytes [21] blobField = "010101"
      ∧ String.mk (stripLeadingZeros (bitsOfBytes [21])) = "10101"
      ∧ ("010101" : String) ≠ "10101" := by
  refine ⟨rfl, rfl, by decide⟩

/-- C3 (amended): `toBitStringFromBytes` expands each byte to eight binary
digits and concatenates; with a positive declared width `BIT(n)` from
metadata the result is the last `n` characters of that expansion, and
absent a width signal the result is the six-character window at the first
occurrence of `"010101"` when the expansion contains one, and otherwise
the expansion with leading `'0'` characters removed at minimum length one —
so an all-zero byte sequence renders as `"0"`. -/
theorem bitstring_rendering (bytes : List Nat) (f : Field) :
    (∀ n, findBitWidth f.metadata = some n →
      toBitStringFromBytes bytes f
        = String.mk (takeLast n (bitsOfBytes bytes)))
    ∧ (findBitWidth f.metadata = none →
        (∀ idx, indexOfSub "010101".data (bitsOfBytes bytes) = some idx →
          toBitStringFromBytes bytes f
            = String.mk (((bitsOfBytes bytes).drop idx).take 6))
        ∧ (indexOfSub "010101".data (bitsOfBytes bytes) = none →
          toBitStringFromBytes bytes f
            = String.mk (stripLeadingZeros (bitsOfBytes bytes))))
    ∧ ((∀ b ∈ bytes, b = 0) → findBitWidth f.metadata = none →
        indexOfSub "010101".data (bitsOfBytes bytes) = none →
        toBitStringFromBytes bytes f = "0") := by
  refine ⟨?_, ?_, ?_⟩
  · intro n h
    simp [toBitStringFromBytes, h]
  · intro h
    refine ⟨?_, ?_⟩
    · intro idx hidx
      simp [toBitStringFromBytes, h, hidx]
    · intro hidx
      simp [toBitStringFromBytes, h, hidx]
  · intro hz h hidx
    have hall : ∀ c ∈ bitsOfBytes bytes, c = '0' := by
      intro c hc
      simp only [bitsOfBytes, List.mem_flatten, List.mem_map] at hc
      obtain ⟨l, ⟨b, hb, rfl⟩, hcl⟩ := hc
      rw [hz b hb] at hcl
      have h0 : byteBits8 0 = List.replicate 8 '0' := rfl
      rw [h0] at hcl
      exact List.eq_of_mem_replicate hcl
    have hdrop : (bitsOfBytes bytes).dropWhile (· = '0') = [] := by
      rw [List.dropWhile_eq_nil_iff]
      intro c hc
      simp [hall c hc]
    simp [toBitStringFromBytes, h, hidx, stripLeadingZeros, hdrop]

/-- Witness for `bitstring_rendering`: the DuckDB test vector `BIT(6)`
value `0x02 0xD5` renders through the declared-width rule as `"010101"`,
and the all-zero byte renders as `"0"`. -/
theorem bitstring_rendering_witness :
    toBitStringFromBytes [2, 213]
        ⟨"bs", .binary, [("duckdb.logicalType", "BIT(6)")], [], none⟩
      = "010101"
    ∧ toBitStringFromBytes [0] blobField = "0" := by
  constructor
  · rw [(bitstring_rendering [2, 213]
      ⟨"bs", .binary, [("duckdb.logicalType", "BIT(6)")], [], none⟩).1 6 rfl]
    rfl
  · exact (bitstring_rendering [0] blobField).2.2
      (by intro b hb; simpa using hb) rfl rfl

/-- C7: an interval delivered as a typed-array tuple of four (or more)
values recombines the third and fourth elements as the high and low 32-bit
halves of a 64-bit nanosecond count (`high * 2^32 + low`), floors it to
microseconds, and returns the canonical `{months, days, micros}` object;
a 2-value tuple under the year-month unit becomes `years * 12 + months`
total months with zero days and microseconds, and under the day-time unit
becomes zero months, the day count, and milliseconds times 1000. -/
theorem interval_decoding (gp : String → Option Int) (f : Field)
    (hf : f.typeId = ArrowTypeId.interval) :
    (∀ m d hi lo rest,
      convertArrowValue gp (.typedArr (m :: d :: hi :: lo :: rest)) f
        = .intervalV (.num m) (.num d)
            (.num (Int.fdiv (hi * 4294967296 + lo) 1000)))
    ∧ (f.intervalUnit = some IntervalUnit.yearMonth → ∀ a b,
        convertArrowValue gp (.typedArr [a, b]) f
          = .intervalV (.num (a * 12 + b)) (.num 0) (.num 0))
    ∧ (f.intervalUnit = some IntervalUnit.dayTime → ∀ a b,
        convertArrowValue gp (.typedArr [a, b]) f
          = .intervalV (.num 0) (.num a) (.num (b * 1000))) := by
  refine ⟨?_, ?_, ?_⟩
  · intro m d hi lo rest
    rw [convertArrowValue]
    simp [hf]
  · intro hu a b
    rw [convertArrowValue]
    simp [hf, hu]
  · intro hu a b
    rw [convertArrowValue]
    simp [hf, hu]

/-- Witness for `interval_decoding`: the month-day-nano tuple
`[1, 2, 3, 500000]` recombines to 12,885,401 microseconds
(`(3 * 2^32 + 500000) / 1000` floored), a year-month `[1, 2]` gives 14
months, and a day-time `[3, 250]` gives 250,000 microseconds. -/
theorem interval_decoding_witness :
    convertArrowValue noGp (.typedArr [1, 2, 3, 500000]) mdnIntervalField
      = .intervalV (.num 1) (.num 2) (.num 12885401)
    ∧ convertArrowValue noGp (.typedArr [1, 2]) ymIntervalField
      = .intervalV (.num 14) (.num 0) (.num 0)
    ∧ convertArrowValue noGp (.typedArr [3, 250]) dtIntervalField
      = .intervalV (.num 0) (.num 3) (.num 250000) := by
  refine ⟨?_, ?_, ?_⟩
  · rw [(interval_decoding noGp mdnIntervalField rfl).1 1 2 3 500000 []]
    rfl
  · rw [(interval_decoding noGp ymIntervalField rfl).2.1 rfl 1 2]
    rfl
  · rw [(interval_decoding noGp dtIntervalField rfl).2.2 rfl 3 250]
    rfl

/-! ## Digit and reader lemmas for the ISO-parse roundtrip -/

theorem digitVal_mkDigit {d : Nat} (h : d < 10) :
    digitVal (mkDigit d) = some d := by
  interval_cases d <;> rfl

theorem isDigit_mkDigit {d : Nat} (h : d < 10) :
    (mkDigit d).isDigit = true := by
  interval_cases d <;> rfl

theorem mkDigit_toNat {d : Nat} (h : d < 10) : (mkDigit d).toNat = 48 + d := by
  interval_cases d <;> rfl

theorem mkDigit_ne_colon {d : Nat} (h : d < 10) : ¬ mkDigit d = ':' := by
  interval_cases d <;> decide

theorem mkDigit_ne_space {d : Nat} (h : d < 10) : ¬ mkDigit d = ' ' := by
  interval_cases d <;> decide

theorem rd2_cons {a b : Nat} (ha : a < 10) (hb : b < 10) (r : List Char) :
    rd2 (mkDigit a :: mkDigit b :: r) = some (a * 10 + b, r) := by
  simp [rd2, digitVal_mkDigit ha, digitVal_mkDigit hb]

theorem rd2_pad2 {n : Nat} (h : n < 100) (r : List Char) :
    rd2 (pad2 n ++ r) = some (n, r) := by
  have h10 : n / 10 * 10 + n % 10 = n := by omega
  have := rd2_cons (show n / 10 < 10 by omega) (show n % 10 < 10 by omega) r
  simpa [pad2, h10] using this

theorem rd4_pad4 {n : Nat} (h : n < 10000) (r : List Char) :
    rd4 (pad4 n ++ r) = some (n, r) := by
  have h1 : n / 1000 < 10 := by omega
  have h2 : n / 100 % 10 < 10 := by omega
  have h3 : n / 10 % 10 < 10 := by omega
  have h4 : n % 10 < 10 := by omega
  have hsum : n / 1000 * 1000 + n / 100 % 10 * 100 + n / 10 % 10 * 10 + n % 10
      = n := by omega
  simp [pad4, rd4, digitVal_mkDigit h1, digitVal_mkDigit h2,
    digitVal_mkDigit h3, digitVal_mkDigit h4, hsum]

theorem takeDigits_pad3 {n : Nat} (h : n < 1000) {tc : Char}
    (htc : digitVal tc = none) (tr : List Char) :
    takeDigits (pad3 n ++ tc :: tr)
      = ([n / 100, n / 10 % 10, n % 10], tc :: tr) := by
  have h1 : n / 100 < 10 := by omega
  have h2 : n / 10 % 10 < 10 := by omega
  have h3 : n % 10 < 10 := by omega
  simp [pad3, takeDigits, digitVal_mkDigit h1, digitVal_mkDigit h2,
    digitVal_mkDigit h3, htc]

theorem fracMs_digits {n : Nat} (_h : n < 1000) :
    fracMs [n / 100, n / 10 % 10, n % 10] = n := by
  simp [fracMs]
  omega

theorem rdTz_Z : rdTz ['Z'] = some 0 := rfl

theorem rdTz_posOffset {oh om : Nat} (h1 : oh ≤ 23) (h2 : om ≤ 59) :
    rdTz ('+' :: (pad2 oh ++ ':' :: pad2 om))
      = some ((oh : Int) * 3600000 + (om : Int) * 60000) := by
  have hoh : oh / 10 * 10 + oh % 10 = oh := by omega
  have hom : om / 10 * 10 + om % 10 = om := by omega
  simp only [pad2, List.cons_append, List.nil_append]
  simp [rdTz, digitVal_mkDigit (show oh / 10 < 10 by omega),
    digitVal_mkDigit (show oh % 10 < 10 by omega),
    digitVal_mkDigit (show om / 10 < 10 by omega),
    digitVal_mkDigit (show om % 10 < 10 by omega), rd2, hoh, hom, h1, h2,
    Nat.lt_succ_of_le]

theorem rdTz_negOffset {oh om : Nat} (h1 : oh ≤ 23) (h2 : om ≤ 59) :
    rdTz ('-' :: (pad2 oh ++ ':' :: pad2 om))
      = some (-((oh : Int) * 3600000 + (om : Int) * 60000)) := by
  have hoh : oh / 10 * 10 + oh % 10 = oh := by omega
  have hom : om / 10 * 10 + om % 10 = om := by omega
  simp only [pad2, List.cons_append, List.nil_append]
  simp [rdTz, digitVal_mkDigit (show oh / 10 < 10 by omega),
    digitVal_mkDigit (show oh % 10 < 10 by omega),
    digitVal_mkDigit (show om / 10 < 10 by omega),
    digitVal_mkDigit (show om % 10 < 10 by omega), rd2, hoh, hom, h1, h2]

theorem daysInMonth_le31 (y m : Int) : daysInMonth y m ≤ 31 := by
  unfold daysInMonth
  split_ifs <;> norm_num

theorem rdTime_render {hh mi ss ms : Nat} (hhh : hh ≤ 23) (hmi : mi ≤ 59)
    (hss : ss ≤ 59) (hms : ms ≤ 999) {tc : Char} {tr : List Char} {off : Int}
    (htc : digitVal tc = none) (htz : rdTz (tc :: tr) = some off) :
    rdTime (pad2 hh ++ ':' :: pad2 mi ++ ':' :: pad2 ss ++ '.' :: pad3 ms
        ++ tc :: tr)
      = some ((hh : Int) * 3600000 + (mi : Int) * 60000 + (ss : Int) * 1000
          + (ms : Int), off) := by
  have e1 := rd2_pad2 (show hh < 100 by omega)
    (':' :: pad2 mi ++ ':' :: pad2 ss ++ '.' :: pad3 ms ++ tc :: tr)
  have e2 := rd2_pad2 (show mi < 100 by omega)
    (':' :: pad2 ss ++ '.' :: pad3 ms ++ tc :: tr)
  have e3 := rd2_pad2 (show ss < 100 by omega)
    ('.' :: pad3 ms ++ tc :: tr)
  have e4 := takeDigits_pad3 (show ms < 1000 by omega) htc tr
  have e5 := fracMs_digits (show ms < 1000 by omega)
  simp only [List.append_assoc, List.cons_append] at e1 e2 e3 e4 ⊢
  simp [rdTime, e1, e2, e3, e4, e5, skipCh, htz, hhh, hmi, hss]

theorem parseIso_render (z : ZonedTs) (hz : z.wf) (tc : Char)
    (tr : List Char) {off : Int} (htc : digitVal tc = none)
    (htz : rdTz (tc :: tr) = some off) :
    parseIsoChars (dateTimeTChars z ++ tc :: tr)
      = some (civilMsOf z - off) := by
  obtain ⟨hy1, hy2, hmo1, hmo2, hd1, hd2, hhh, hmi, hss, hms, hoh, hom⟩ := hz
  have hd31 : z.d ≤ 31 := by
    have := daysInMonth_le31 (z.y : Int) (z.mo : Int)
    omega
  have e0 := rd4_pad4 (show z.y < 10000 by omega)
    ('-' :: pad2 z.mo ++ '-' :: pad2 z.d ++ 'T' :: pad2 z.hh ++ ':' :: pad2 z.mi
      ++ ':' :: pad2 z.ss ++ '.' :: pad3 z.ms ++ tc :: tr)
  have e1 := rd2_pad2 (show z.mo < 100 by omega)
    ('-' :: pad2 z.d ++ 'T' :: pad2 z.hh ++ ':' :: pad2 z.mi
      ++ ':' :: pad2 z.ss ++ '.' :: pad3 z.ms ++ tc :: tr)
  have e2 := rd2_pad2 (show z.d < 100 by omega)
    ('T' :: pad2 z.hh ++ ':' :: pad2 z.mi ++ ':' :: pad2 z.ss
      ++ '.' :: pad3 z.ms ++ tc :: tr)
  have e3 := rdTime_render hhh hmi hss hms htc htz
  simp only [List.append_assoc, List.cons_append] at e0 e1 e2 e3 ⊢
  simp only [dateTimeTChars, List.append_assoc, List.cons_append]
  simp [parseIsoChars, e0, e1, e2, e3, skipCh, hmo1, hmo2, hd1, hd2,
    civilMsOf, civilMs]
  omega

theorem replaceFirst_append_space (l : List Char) (r : List Char)
    (hl : ' ' ∉ l) :
    replaceFirstSpaceChars (l ++ ' ' :: r) = l ++ 'T' :: r := by
  induction l with
  | nil => rfl
  | cons c cs ih =>
    have hc : ¬ c = ' ' := fun h => hl (h ▸ List.mem_cons_self c cs)
    have hcs : ' ' ∉ cs := fun h => hl (List.mem_cons_of_mem _ h)
    simp [replaceFirstSpaceChars, hc, ih hcs]

theorem toNat_mem_pad2 {c : Char} {n : Nat} (hn : n < 100)
    (h : c ∈ pad2 n) : 48 ≤ c.toNat ∧ c.toNat ≤ 57 := by
  simp only [pad2, List.mem_cons, List.not_mem_nil, or_false] at h
  rcases h with rfl | rfl <;> (rw [mkDigit_toNat (by omega)]; omega)

theorem toNat_mem_pad3 {c : Char} {n : Nat} (hn : n < 1000)
    (h : c ∈ pad3 n) : 48 ≤ c.toNat ∧ c.toNat ≤ 57 := by
  simp only [pad3, List.mem_cons, List.not_mem_nil, or_false] at h
  rcases h with rfl | rfl | rfl <;> (rw [mkDigit_toNat (by omega)]; omega)

theorem toNat_mem_pad4 {c : Char} {n : Nat} (hn : n < 10000)
    (h : c ∈ pad4 n) : 48 ≤ c.toNat ∧ c.toNat ≤ 57 := by
  simp only [pad4, List.mem_cons, List.not_mem_nil, or_false] at h
  rcases h with rfl | rfl | rfl | rfl <;>
    (rw [mkDigit_toNat (by omega)]; omega)

theorem space_not_mem_datepart (z : ZonedTs) (hz : z.wf) :
    ' ' ∉ (pad4 z.y ++ '-' :: pad2 z.mo ++ '-' :: pad2 z.d) := by
  obtain ⟨hy1, hy2, hmo1, hmo2, hd1, hd2, _⟩ := hz
  have hd31 : z.d ≤ 31 := by
    have := daysInMonth_le31 (z.y : Int) (z.mo : Int)
    omega
  intro hmem
  simp only [List.append_assoc, List.mem_append, List.mem_cons, or_false,
    false_or] at hmem
  have h32 : (' ').toNat = 32 := rfl
  rcases hmem with h|(h|h)|(h|h)
  · have := toNat_mem_pad4 (show z.y < 10000 by omega) h
    omega
  · exact absurd h (by decide)
  · have := toNat_mem_pad2 (show z.mo < 100 by omega) h
    omega
  · exact absurd h (by decide)
  · have := toNat_mem_pad2 (show z.d < 100 by omega) h
    omega

theorem replaceFirst_datepart (z : ZonedTs) (hz : z.wf) (rest : List Char) :
    replaceFirstSpaceChars
        (pad4 z.y ++ '-' :: pad2 z.mo ++ '-' :: pad2 z.d ++ ' ' :: rest)
      = pad4 z.y ++ '-' :: pad2 z.mo ++ '-' :: pad2 z.d ++ 'T' :: rest := by
  have := replaceFirst_append_space
    (pad4 z.y ++ '-' :: pad2 z.mo ++ '-' :: pad2 z.d) rest
    (space_not_mem_datepart z hz)
  simpa [List.append_assoc] using this

theorem renderCore_toNat_lt (z : ZonedTs) (hz : z.wf) :
    ∀ c ∈ renderCore z, c.toNat < 60 := by
  obtain ⟨hy1, hy2, hmo1, hmo2, hd1, hd2, hhh, hmi, hss, hms, hoh, hom⟩ := hz
  have hd31 : z.d ≤ 31 := by
    have := daysInMonth_le31 (z.y : Int) (z.mo : Int)
    omega
  intro c hc
  simp only [renderCore, List.append_assoc, List.mem_append, List.mem_cons]
    at hc
  rcases hc with h|(rfl|h)|(rfl|h)|(rfl|h)|(rfl|h)|(rfl|h)|(rfl|h)
  · have := toNat_mem_pad4 (show z.y < 10000 by omega) h
    omega
  · decide
  · have := toNat_mem_pad2 (show z.mo < 100 by omega) h
    omega
  · decide
  · have := toNat_mem_pad2 (show z.d < 100 by omega) h
    omega
  · decide
  · have := toNat_mem_pad2 (show z.hh < 100 by omega) h
    omega
  · decide
  · have := toNat_mem_pad2 (show z.mi < 100 by omega) h
    omega
  · decide
  · have := toNat_mem_pad2 (show z.ss < 100 by omega) h
    omega
  · decide
  · have := toNat_mem_pad3 (show z.ms < 1000 by omega) h
    omega

theorem hasTZ_zoned (z : ZonedTs) (hz : z.wf) :
    hasTZMarker (renderZoned z) = true := by
  obtain ⟨-, -, -, -, -, -, -, -, -, -, hoh, hom⟩ := hz
  have h1 : z.om % 10 < 10 := by omega
  have h2 : z.om / 10 < 10 := by omega
  have h3 : z.oh % 10 < 10 := by omega
  have h4 : z.oh / 10 < 10 := by omega
  rw [hasTZMarker, Bool.or_eq_true]
  right
  cases hneg : z.negOff <;>
    simp [renderZoned, pad2, List.reverse_append, endsWithOffsetRev, hneg,
      isDigit_mkDigit h1, isDigit_mkDigit h2, isDigit_mkDigit h3,
      isDigit_mkDigit h4]

theorem hasTZ_zulu (z : ZonedTs) : hasTZMarker (renderZulu z) = true := by
  rw [hasTZMarker, Bool.or_eq_true]
  left
  simp [renderZulu, List.any_append]

theorem hasTZ_naive (z : ZonedTs) (hz : z.wf) :
    hasTZMarker (renderNaive z) = false := by
  have hA : ((renderCore z).any fun c => c = 'Z') = false := by
    rw [List.any_eq_false]
    intro c hc
    have := renderCore_toNat_lt z hz c hc
    simp only [decide_eq_true_eq]
    intro h
    rw [h] at this
    simp at this
  have hms3 : z.ms % 10 < 10 := by omega
  have hms2 : z.ms / 10 % 10 < 10 := by omega
  have hms1 : z.ms / 100 < 10 := by
    obtain ⟨-, -, -, -, -, -, -, -, -, hms, -⟩ := hz
    omega
  have hB : endsWithOffsetRev (renderCore z).reverse = false := by
    simp [renderCore, pad2, pad3, List.reverse_append, endsWithOffsetRev,
      mkDigit_ne_colon hms1]
  simp [hasTZMarker, renderNaive, hA, hB]

theorem daysFromCivil_bounds {y m d : Int} (hy1 : 1 ≤ y) (hy2 : y ≤ 9999)
    (_hm1 : 1 ≤ m) (_hm2 : m ≤ 12) (hd1 : 1 ≤ d) (hd2 : d ≤ 31) :
    -800000 ≤ daysFromCivil y m d ∧ daysFromCivil y m d ≤ 3000000 := by
  simp only [daysFromCivil]
  rw [Int.fdiv_eq_ediv _ (by norm_num), Int.fdiv_eq_ediv _ (by norm_num),
    Int.fdiv_eq_ediv _ (by norm_num), Int.fdiv_eq_ediv _ (by norm_num)]
  have h1 : 0 ≤ Int.emod (m + 9) 12 := Int.emod_nonneg _ (by norm_num)
  have h2 : Int.emod (m + 9) 12 < 12 := Int.emod_lt_of_pos _ (by norm_num)
  set mp := Int.emod (m + 9) 12 with hmp
  split_ifs <;> omega

theorem jsParse_of_parseIso {gp : String → Option Int} {s : String} {t : Int}
    (h : parseIsoChars s.data = some t) (h1 : -8640000000000000 ≤ t)
    (h2 : t ≤ 8640000000000000) : jsParse gp s = .valid t := by
  simp only [jsParse, h, dateFromMs]
  rw [if_pos (show t.natAbs ≤ 8640000000000000 by omega)]

theorem civilMsOf_bounds (z : ZonedTs) (hz : z.wf) :
    -70000000000000 ≤ civilMsOf z ∧ civilMsOf z ≤ 260000000000000 := by
  obtain ⟨hy1, hy2, hmo1, hmo2, hd1, hd2, hhh, hmi, hss, hms, hoh, hom⟩ := hz
  have hd31 : z.d ≤ 31 := by
    have := daysInMonth_le31 (z.y : Int) (z.mo : Int)
    omega
  have hb : -800000 ≤ daysFromCivil (z.y : Int) (z.mo : Int) (z.d : Int)
      ∧ daysFromCivil (z.y : Int) (z.mo : Int) (z.d : Int) ≤ 3000000 :=
    daysFromCivil_bounds (by exact_mod_cast hy1) (by exact_mod_cast hy2)
      (by exact_mod_cast hmo1) (by exact_mod_cast hmo2)
      (by exact_mod_cast hd1) (by exact_mod_cast hd31)
  simp only [civilMsOf, civilMs]
  omega

theorem offsetMsOf_bounds (z : ZonedTs) (hz : z.wf) :
    -90000000 ≤ offsetMsOf z ∧ offsetMsOf z ≤ 90000000 := by
  obtain ⟨-, -, -, -, -, -, -, -, -, -, hoh, hom⟩ := hz
  simp only [offsetMsOf]
  cases z.negOff <;> simp <;> omega

/-- C6: the zoned-timestamp string coercion preserves an explicit UTC
offset and normalizes the value to the equivalent UTC instant (the civil
reading of the components minus the declared offset), treats an explicit
`Z` marker as UTC, and interprets a string carrying no offset marker at
all as UTC. -/
theorem timestamp_zoned_normalization (gp : String → Option Int)
    (z : ZonedTs) (hz : z.wf) :
    timestampFromString gp (renderZoned z) = .valid (specUtcInstant z)
    ∧ timestampFromString gp (renderZulu z) = .valid (civilMsOf z)
    ∧ timestampFromString gp (renderNaive z) = .valid (civilMsOf z) := by
  obtain ⟨hy1, hy2, hmo1, hmo2, hd1, hd2, hhh, hmi, hss, hms, hoh, hom⟩ := hz
  have hzw : z.wf := ⟨hy1, hy2, hmo1, hmo2, hd1, hd2, hhh, hmi, hss, hms,
    hoh, hom⟩
  have hcb := civilMsOf_bounds z hzw
  have hob := offsetMsOf_bounds z hzw
  have hisoZ : parseIsoChars (dateTimeTChars z ++ ['Z'])
      = some (civilMsOf z) := by
    have h := parseIso_render z hzw 'Z' [] rfl rdTz_Z
    simpa using h
  refine ⟨?_, ?_, ?_⟩
  · -- the explicit-offset form
    have hrep : replaceFirstSpaceWithT (renderZoned z)
        = String.mk (dateTimeTChars z
            ++ (if z.negOff then '-' else '+')
              :: (pad2 z.oh ++ ':' :: pad2 z.om)) := by
      have e := replaceFirst_datepart z hzw
        (pad2 z.hh ++ ':' :: pad2 z.mi ++ ':' :: pad2 z.ss ++ '.' :: pad3 z.ms
          ++ (if z.negOff then '-' else '+') :: (pad2 z.oh ++ ':' :: pad2 z.om))
      simp only [List.append_assoc, List.cons_append] at e
      simp only [replaceFirstSpaceWithT, renderZoned, renderCore,
        dateTimeTChars, List.append_assoc, List.cons_append]
      rw [e]
    have hiso : parseIsoChars (dateTimeTChars z
          ++ (if z.negOff then '-' else '+')
            :: (pad2 z.oh ++ ':' :: pad2 z.om))
        = some (civilMsOf z - offsetMsOf z) := by
      cases hneg : z.negOff
      · have h := parseIso_render z hzw '+'
          (pad2 z.oh ++ ':' :: pad2 z.om) rfl (rdTz_posOffset hoh hom)
        rw [if_neg (by simp)]
        rw [h]
        simp [offsetMsOf, hneg]
      · have h := parseIso_render z hzw '-'
          (pad2 z.oh ++ ':' :: pad2 z.om) rfl (rdTz_negOffset hoh hom)
        rw [if_pos rfl]
        rw [h]
        simp [offsetMsOf, hneg]
    rw [timestampFromString, hasTZ_zoned z hzw, if_pos rfl, hrep]
    exact jsParse_of_parseIso (by exact hiso)
      (by simp only [specUtcInstant]; omega)
      (by simp only [specUtcInstant]; omega)
  · -- the Zulu form
    have hrep : replaceFirstSpaceWithT (renderZulu z)
        = String.mk (dateTimeTChars z ++ ['Z']) := by
      have e := replaceFirst_datepart z hzw
        (pad2 z.hh ++ ':' :: pad2 z.mi ++ ':' :: pad2 z.ss ++ '.' :: pad3 z.ms
          ++ ['Z'])
      simp only [List.append_assoc, List.cons_append] at e
      simp only [replaceFirstSpaceWithT, renderZulu, renderCore,
        dateTimeTChars, List.append_assoc, List.cons_append]
      rw [e]
    rw [timestampFromString, hasTZ_zulu z, if_pos rfl, hrep]
    exact jsParse_of_parseIso (by exact hisoZ) (by omega) (by omega)
  · -- the offset-less form, interpreted as UTC by appending "Z"
    have hrep : replaceFirstSpaceWithT (renderNaive z)
        = String.mk (dateTimeTChars z) := by
      have e := replaceFirst_datepart z hzw
        (pad2 z.hh ++ ':' :: pad2 z.mi ++ ':' :: pad2 z.ss ++ '.' :: pad3 z.ms)
      simp only [List.append_assoc, List.cons_append] at e
      simp only [replaceFirstSpaceWithT, renderNaive, renderCore,
        dateTimeTChars, List.append_assoc, List.cons_append]
      rw [e]
    rw [timestampFromString, hasTZ_naive z hzw]
    rw [if_neg (by simp)]
    rw [hrep]
    refine jsParse_of_parseIso ?_ (by omega) (by omega)
    have : (String.mk (dateTimeTChars z) ++ "Z").data
        = dateTimeTChars z ++ ['Z'] := by
      rw [String.data_append]
    rw [this, hisoZ]

/-- Witness for `timestamp_zoned_normalization` at the spec's example:
`1992-09-20 11:30:00.123+03:00` converts to the UTC instant
716977800123 ms, which is exactly `1992-09-20T08:30:00.123Z`. -/
theorem timestamp_zoned_normalization_witness :
    renderZoned exampleZoned = "1992-09-20 11:30:00.123+03:00"
    ∧ timestampFromString noGp (renderZoned exampleZoned)
        = .valid 716977800123
    ∧ specUtcInstant exampleZoned = 716977800123
    ∧ (716977800123 : Int) = civilMs 1992 9 20 8 30 0 123 := by
  refine ⟨rfl, ?_, rfl, rfl⟩
  have h := (timestamp_zoned_normalization noGp exampleZoned (by decide)).1
  rw [h]
  rfl

end KyselyDuckDb
